import Mathlib

/-!
Shallow embedding of the note-taker backend: the notes table and trigger of
init.sql, the Express route handlers of server.js, and the mail module
emailConfig.js. Timestamps are modelled as natural-number clock ticks; the
CURRENT_TIMESTAMP read by an INSERT or by the update trigger is the explicit
argument `now` of the corresponding operation.
-/

namespace NoteTaker

/-- A row of the notes table (init.sql lines 68 to 74): id SERIAL PRIMARY KEY,
title VARCHAR NOT NULL, content TEXT NOT NULL, created_at and updated_at
TIMESTAMP defaulting to CURRENT_TIMESTAMP. -/
structure Note where
  id : Nat
  title : String
  content : String
  created_at : Nat
  updated_at : Nat
deriving DecidableEq, Repr

/-- The storage state: the stored rows plus the value of the SERIAL id
sequence, which in Postgres starts at 1. -/
structure DB where
  notes : List Note
  nextId : Nat
deriving DecidableEq, Repr

/-- The freshly initialised, empty notes table. -/
def dbEmpty : DB := { notes := [], nextId := 1 }

/-- Response of the create route: 400 on missing or empty fields, else 201
with the stored row. -/
inductive CreateResult where
  | badRequest
  | created (note : Note)
deriving DecidableEq, Repr

/-- POST /api/notes (server.js lines 159 to 177): the handler rejects with 400
exactly when title or content is falsy, which for JS strings means the empty
string; otherwise it runs INSERT INTO notes (title, content) RETURNING *, and
init.sql defaults both timestamps to CURRENT_TIMESTAMP. -/
def createNote (db : DB) (now : Nat) (title content : String) : CreateResult × DB :=
  if title = "" ∨ content = "" then
    (CreateResult.badRequest, db)
  else
    let note : Note :=
      { id := db.nextId, title := title, content := content,
        created_at := now, updated_at := now }
    (CreateResult.created note,
     { notes := db.notes ++ [note], nextId := db.nextId + 1 })

/-- GET /api/notes/:id (server.js lines 125 to 139): SELECT * FROM notes WHERE
id = $1; none models the 404 branch. -/
def getNote (db : DB) (id : Nat) : Option Note :=
  db.notes.find? (fun n => n.id == id)

/-- Response of the update route: 400 on missing or empty fields, 404 when no
row matched, else 200 with the updated row. -/
inductive UpdateResult where
  | badRequest
  | notFound
  | ok (note : Note)
deriving DecidableEq, Repr

/-- PUT /api/notes/:id (server.js lines 196 to 219): falsy-field check, then
UPDATE notes SET title = $1, content = $2 WHERE id = $3 RETURNING *; the
BEFORE UPDATE trigger of init.sql (lines 130 to 136 and 167 to 168) overwrites
updated_at of every updated row with CURRENT_TIMESTAMP. -/
def updateNote (db : DB) (now : Nat) (id : Nat) (title content : String) :
    UpdateResult × DB :=
  if title = "" ∨ content = "" then
    (UpdateResult.badRequest, db)
  else
    match db.notes.find? (fun n => n.id == id) with
    | none => (UpdateResult.notFound, db)
    | some n =>
        (UpdateResult.ok { n with title := title, content := content, updated_at := now },
         { db with notes := db.notes.map (fun m =>
             if m.id = id then
               { m with title := title, content := content, updated_at := now }
             else m) })

/-- Response of the delete route: 404 when no row matched, else 200 with a
confirmation message. -/
inductive DeleteResult where
  | notFound
  | deleted (message : String)
deriving DecidableEq, Repr

/-- DELETE /api/notes/:id (server.js lines 235 to 249): DELETE FROM notes
WHERE id = $1 RETURNING *; 404 when no row matched. -/
def deleteNote (db : DB) (id : Nat) : DeleteResult × DB :=
  if db.notes.any (fun n => n.id == id) then
    (DeleteResult.deleted ("Note deleted successfully"),
     { db with notes := db.notes.filter (fun n => n.id != id) })
  else
    (DeleteResult.notFound, db)

/-- Ordering used by the list route: updated_at descending. -/
def byUpdatedDesc (a b : Note) : Prop := b.updated_at ≤ a.updated_at

instance : DecidableRel byUpdatedDesc :=
  fun a b => inferInstanceAs (Decidable (b.updated_at ≤ a.updated_at))

instance : IsTotal Note byUpdatedDesc :=
  ⟨fun a b => Nat.le_total b.updated_at a.updated_at⟩

instance : IsTrans Note byUpdatedDesc :=
  ⟨fun _ _ _ hab hbc => Nat.le_trans hbc hab⟩

/-- GET /api/notes (server.js lines 96 to 106): SELECT * FROM notes ORDER BY
updated_at DESC, modelled as a sort of the stored rows by that ordering. -/
def listNotes (db : DB) : List Note :=
  List.insertionSort byUpdatedDesc db.notes

/-- Modelled from the spec: the trimming of surrounding whitespace that the
spec says precedes the emptiness check (JS String.prototype.trim); the route
handlers in server.js perform no such trimming, so this definition only
serves to state the spec-side condition. -/
def jsTrim (s : String) : String :=
  String.mk (((s.data.dropWhile Char.isWhitespace).reverse.dropWhile
    Char.isWhitespace).reverse)

/-- States of the notes table reachable through the three mutating routes,
indexed by a monotone clock; tick lets time pass between requests. -/
inductive Reach : DB → Nat → Prop where
  | init : Reach dbEmpty 0
  | tick {db t t'} : Reach db t → t ≤ t' → Reach db t'
  | create {db t} (title content : String) :
      Reach db t → Reach (createNote db t title content).2 t
  | update {db t} (id : Nat) (title content : String) :
      Reach db t → Reach (updateNote db t id title content).2 t
  | delete {db t} (id : Nat) :
      Reach db t → Reach (deleteNote db id).2 t

/-- Row invariant at clock value t: fields are non-empty, the timestamps are
ordered, and no timestamp is in the future. -/
def NoteOk (t : Nat) (n : Note) : Prop :=
  n.title ≠ "" ∧ n.content ≠ "" ∧ n.created_at ≤ n.updated_at ∧ n.updated_at ≤ t

/-- The two environment variables the mail module reads; none models an unset
variable (JS undefined). -/
structure Env where
  gmailUser : Option String
  gmailAppPassword : Option String
deriving DecidableEq, Repr

/-- JS truthiness of an env var value: undefined and the empty string are
falsy, every other string is truthy. -/
def truthy : Option String → Bool
  | none => false
  | some s => s != ""

/-- isConfigured (emailConfig.js lines 167 to 169). -/
def isConfigured (env : Env) : Bool :=
  truthy env.gmailUser && truthy env.gmailAppPassword

/-- getUserEmail (emailConfig.js lines 184 to 186): process.env.GMAIL_USER
when truthy, else null. -/
def getUserEmail (env : Env) : Option String :=
  match env.gmailUser with
  | none => none
  | some s => if s = "" then none else some s

/-- Nodemailer transporter handle as created by initializeTransporter
(emailConfig.js lines 69 to 75): the gmail service with the given auth
pair. -/
structure Transporter where
  user : String
  pass : String
deriving DecidableEq, Repr

/-- Module-level mutable state of emailConfig.js: transporter (line 33) and
userEmail (line 40), both null until first use. -/
structure MailState where
  transporter : Option Transporter
  userEmail : Option String
deriving DecidableEq, Repr

/-- The module state right after require, before any send. -/
def mailStateInit : MailState := { transporter := none, userEmail := none }

/-- Error thrown by initializeTransporter when a credential is missing
(emailConfig.js line 64). -/
def credentialsError : String :=
  "Gmail credentials not configured. Please set GMAIL_USER and GMAIL_APP_PASSWORD in .env file."

/-- Replacement of every newline by a br tag at the character level; this is
the content.replace call of emailConfig.js line 133, whose pattern is the
single newline character with the global flag. -/
def replaceNewlinesList (cs : List Char) : List Char :=
  (cs.map (fun c => if c = '\n' then "<br>".data else [c])).flatten

/-- String form of the newline replacement. -/
def replaceNewlines (s : String) : String :=
  String.mk (replaceNewlinesList s.data)

/-- Template text of the html body before the subject interpolation
(emailConfig.js lines 130 to 131). -/
def emailHtmlPre : String :=
  "<div style=\"font-family: Arial, sans-serif; padding: 20px;\">\n               <h2 style=\"color: #2c3e50;\">"

/-- Template text between the subject and the content interpolations
(emailConfig.js lines 131 to 133). -/
def emailHtmlMid : String :=
  "</h2>\n               <div style=\"white-space: pre-wrap; line-height: 1.6; color: #34495e;\">\n                 "

/-- Template text after the content interpolation (emailConfig.js lines 133
to 137). -/
def emailHtmlSuf : String :=
  "\n               </div>\n               <hr style=\"margin-top: 30px; border: none; border-top: 1px solid #ecf0f1;\">\n               <p style=\"color: #95a5a6; font-size: 12px;\">Sent from Notes App</p>\n             </div>"

/-- The interpolated html body (emailConfig.js lines 130 to 137): the subject
inside an h2 heading and the content with newlines replaced by br tags. -/
def emailHtml (subject content : String) : String :=
  emailHtmlPre ++ subject ++ emailHtmlMid ++ replaceNewlines content ++ emailHtmlSuf

/-- The mailOptions record handed to transporter.sendMail (emailConfig.js
lines 125 to 138); fromAddr models the from field, a Lean keyword. -/
structure MailMessage where
  fromAddr : Option String
  toAddr : String
  subject : String
  text : String
  html : String
deriving DecidableEq, Repr

/-- Construction of mailOptions from the module userEmail and the three
arguments of sendEmail. -/
def mkMailOptions (userEmail : Option String) (toAddr subject content : String) :
    MailMessage :=
  { fromAddr := userEmail, toAddr := toAddr, subject := subject,
    text := content, html := emailHtml subject content }

/-- sendEmail (emailConfig.js lines 118 to 146): when the transporter is null
it is initialised first via initializeTransporter (lines 59 to 78), which
throws credentialsError when either env var is falsy, before assigning any
module state; then mailOptions is handed to transporter.sendMail. The SMTP
call itself is external and taken to succeed, returning the forwarded
message together with the module state after the call. -/
def sendEmailM (env : Env) (st : MailState) (toAddr subject content : String) :
    Except String (MailMessage × MailState) :=
  match st.transporter with
  | some _ =>
      Except.ok (mkMailOptions st.userEmail toAddr subject content, st)
  | none =>
      if truthy env.gmailUser && truthy env.gmailAppPassword then
        let email := env.gmailUser.getD ""
        let pw := env.gmailAppPassword.getD ""
        let st' : MailState :=
          { transporter := some { user := email, pass := pw },
            userEmail := some email }
        Except.ok (mkMailOptions st'.userEmail toAddr subject content, st')
      else
        Except.error credentialsError

/-- A sequence of sendEmail calls within one process lifetime: each call
threads the module state; a thrown error leaves the state unchanged. -/
def runSends (env : Env) (st : MailState) :
    List (String × String × String) → MailState
  | [] => st
  | (toAddr, subject, content) :: rest =>
      match sendEmailM env st toAddr subject content with
      | Except.ok (_, st') => runSends env st' rest
      | Except.error _ => runSends env st rest

/-- One character of the regex class that excludes whitespace and the at
sign. -/
def isEmailChar (c : Char) : Bool := !c.isWhitespace && c != '@'

/-- The test of the address regex of server.js line 312, anchored at both
ends: a nonempty whitespace-free local part, exactly one at sign, and a
remainder of non-space non-at characters containing a dot that is neither
its first nor its last character. -/
def emailRegexTest (s : String) : Bool :=
  let cs := s.data
  let l := cs.takeWhile (fun c => c != '@')
  match cs.dropWhile (fun c => c != '@') with
  | [] => false
  | _ :: r =>
      decide (l ≠ []) && l.all (fun c => !c.isWhitespace) &&
      r.all isEmailChar && (r.drop 1).dropLast.contains '.'

/-- Outcome of the email-send route; delegated records the arguments handed
to sendEmail. -/
inductive EmailSendOutcome where
  | missingFields
  | notConfigured
  | invalidEmail
  | delegated (toAddr subject content : String)
deriving DecidableEq, Repr

/-- HTTP status the route attaches to each outcome; a delegated send that
succeeds is answered 200 (server.js lines 303 to 318). -/
def outcomeStatus : EmailSendOutcome → Nat
  | EmailSendOutcome.missingFields => 400
  | EmailSendOutcome.notConfigured => 500
  | EmailSendOutcome.invalidEmail => 400
  | EmailSendOutcome.delegated _ _ _ => 200

/-- POST /api/email/send (server.js lines 299 to 323): missing-field check,
then the configuration check, then the address-format check, then delegation
to sendEmail. -/
def emailSendHandler (env : Env) (toAddr subject content : String) :
    EmailSendOutcome :=
  if toAddr = "" ∨ subject = "" ∨ content = "" then EmailSendOutcome.missingFields
  else if !isConfigured env then EmailSendOutcome.notConfigured
  else if !emailRegexTest toAddr then EmailSendOutcome.invalidEmail
  else EmailSendOutcome.delegated toAddr subject content

/-- Body of the response of GET /api/email/status. -/
structure EmailStatus where
  configured : Bool
  email : Option String
deriving DecidableEq, Repr

/-- GET /api/email/status (server.js lines 267 to 274): reports isConfigured
and getUserEmail, both read directly from the environment. -/
def emailStatusHandler (env : Env) : EmailStatus :=
  { configured := isConfigured env, email := getUserEmail env }

/-! Theorems. -/

theorem getNote_eq_none_iff (db : DB) (id : Nat) :
    getNote db id = none ↔ db.notes.any (fun n => n.id == id) = false := by
  unfold getNote
  rw [List.find?_eq_none, List.any_eq_false]

/-- C1 counterexample: the claim says a title or content that is empty after
trimming surrounding whitespace is rejected with 400 and nothing is written;
the handlers only test for the empty string, so a whitespace-only title
passes validation on create, the row is written to storage, and a
whitespace-only title is likewise accepted on update. -/
theorem create_trim_counterexample :
    jsTrim ("   ") = "" ∧
    (createNote dbEmpty 0 ("   ") ("x")).1 = CreateResult.created ⟨1, "   ", "x", 0, 0⟩ ∧
    (createNote dbEmpty 0 ("   ") ("x")).2.notes = [⟨1, "   ", "x", 0, 0⟩] ∧
    (updateNote (createNote dbEmpty 0 ("   ") ("x")).2 1 1 (" ") ("y")).1
      = UpdateResult.ok ⟨1, " ", "y", 0, 1⟩ := by
  refine ⟨by decide, rfl, rfl, rfl⟩

/-- C1 amended: for every create and update request in which title or content
is the empty string, the operation fails with 400 and storage is unchanged;
strings of mere whitespace are not trimmed and are accepted. -/
theorem create_update_reject_empty (db : DB) (now id : Nat) (title content : String)
    (h : title = "" ∨ content = "") :
    (createNote db now title content).1 = CreateResult.badRequest ∧
    (createNote db now title content).2 = db ∧
    (updateNote db now id title content).1 = UpdateResult.badRequest ∧
    (updateNote db now id title content).2 = db := by
  unfold createNote updateNote
  rw [if_pos h, if_pos h]
  exact ⟨rfl, rfl, rfl, rfl⟩

/-- Witness for C1 amended at a concrete empty-title request. -/
theorem create_update_reject_empty_witness :
    (createNote dbEmpty 5 ("") ("x")).1 = CreateResult.badRequest ∧
    (createNote dbEmpty 5 ("") ("x")).2 = dbEmpty ∧
    (updateNote dbEmpty 5 1 ("") ("x")).1 = UpdateResult.badRequest ∧
    (updateNote dbEmpty 5 1 ("") ("x")).2 = dbEmpty :=
  create_update_reject_empty dbEmpty 5 1 ("") ("x") (Or.inl rfl)

/-- C6: delete fails with 404 exactly when no note with the id exists; in
every case the resulting table is the old one with every row of that id
removed, a get of the id right after the delete fails with 404, and a second
delete of the same id reports 404 rather than success. -/
theorem delete_semantics (db : DB) (id : Nat) :
    ((deleteNote db id).1 = DeleteResult.notFound ↔ getNote db id = none) ∧
    (deleteNote db id).2.notes = db.notes.filter (fun n => n.id != id) ∧
    getNote (deleteNote db id).2 id = none ∧
    (deleteNote (deleteNote db id).2 id).1 = DeleteResult.notFound := by
  have hfilter : ∀ l : List Note,
      (l.filter (fun n => n.id != id)).any (fun n => n.id == id) = false := by
    intro l
    rw [List.any_eq_false]
    intro x hx
    have := (List.mem_filter.mp hx).2
    simp only [bne_iff_ne, ne_eq] at this
    simp [this]
  by_cases h : db.notes.any (fun n => n.id == id) = true
  · have h1 : deleteNote db id
        = (DeleteResult.deleted ("Note deleted successfully"),
           { db with notes := db.notes.filter (fun n => n.id != id) }) := by
      unfold deleteNote
      rw [if_pos h]
    refine ⟨?_, ?_, ?_, ?_⟩
    · rw [h1, getNote_eq_none_iff]
      simp [h]
    · rw [h1]
    · rw [h1, getNote_eq_none_iff]
      exact hfilter db.notes
    · rw [h1]
      unfold deleteNote
      rw [if_neg (by simp [hfilter db.notes])]
  · have h0 : db.notes.any (fun n => n.id == id) = false := by
      simpa using h
    have h1 : deleteNote db id = (DeleteResult.notFound, db) := by
      unfold deleteNote
      rw [if_neg (by simp [h0])]
    have hnone : getNote db id = none := (getNote_eq_none_iff db id).mpr h0
    refine ⟨?_, ?_, ?_, ?_⟩
    · rw [h1]
      simpa using hnone
    · rw [h1]
      refine (List.filter_eq_self.mpr ?_).symm
      intro a ha
      have : (a.id == id) = false := by
        rw [List.any_eq_false] at h0
        simpa using h0 a ha
      simpa using this
    · rw [h1]
      exact hnone
    · rw [h1]
      unfold deleteNote
      rw [if_neg (by simp [h0])]

/-- C10: when GMAIL_USER is set to a non-empty address and GMAIL_APP_PASSWORD
is falsy, the status endpoint reports configured false together with the
GMAIL_USER value in the email field, because the address is read directly
from the environment. -/
theorem email_status_user_without_password (u : String) (p : Option String)
    (hu : u ≠ "") (hp : truthy p = false) :
    emailStatusHandler { gmailUser := some u, gmailAppPassword := p }
      = { configured := false, email := some u } := by
  unfold emailStatusHandler isConfigured getUserEmail
  rw [hp]
  simp [hu]

/-- Witness for C10 at a concrete address with the password variable unset. -/
theorem email_status_user_without_password_witness :
    emailStatusHandler { gmailUser := some ("user@gmail.com"), gmailAppPassword := none }
      = { configured := false, email := some ("user@gmail.com") } :=
  email_status_user_without_password ("user@gmail.com") none (by decide) rfl

/-- C3: the list route returns exactly the stored notes (a permutation),
ordered by updated_at descending, the empty sequence on an empty table; and
after creating note A at t1, creating note B at t2, and updating A at a
strictly later t3, the listing returns A before B. -/
theorem list_ordered_by_updated_desc (db : DB) (t1 t2 t3 : Nat) (h : t2 < t3) :
    (listNotes db).Perm db.notes ∧
    (listNotes db).Pairwise (fun a b => b.updated_at ≤ a.updated_at) ∧
    listNotes dbEmpty = [] ∧
    listNotes (updateNote ((createNote ((createNote dbEmpty t1 ("A") ("a")).2)
        t2 ("B") ("b")).2) t3 1 ("A2") ("a2")).2
      = [⟨1, "A2", "a2", t1, t3⟩, ⟨2, "B", "b", t2, t2⟩] := by
  refine ⟨List.perm_insertionSort byUpdatedDesc db.notes,
          List.sorted_insertionSort byUpdatedDesc db.notes, rfl, ?_⟩
  have hnotes : (updateNote ((createNote ((createNote dbEmpty t1 ("A") ("a")).2)
      t2 ("B") ("b")).2) t3 1 ("A2") ("a2")).2.notes
      = [⟨1, "A2", "a2", t1, t3⟩, ⟨2, "B", "b", t2, t2⟩] := rfl
  unfold listNotes
  rw [hnotes]
  simp only [List.insertionSort, List.orderedInsert]
  simp [byUpdatedDesc, Nat.le_of_lt h]

/-- Witness for C3 at concrete times 0, 1, 2. -/
theorem list_ordered_by_updated_desc_witness :
    listNotes (updateNote ((createNote ((createNote dbEmpty 0 ("A") ("a")).2)
        1 ("B") ("b")).2) 2 1 ("A2") ("a2")).2
      = [⟨1, "A2", "a2", 0, 2⟩, ⟨2, "B", "b", 1, 1⟩] :=
  (list_ordered_by_updated_desc dbEmpty 0 1 2 (by decide)).2.2.2

/-- C4: a successful update of an existing id returns the stored row with the
new title, content and updated_at but the old id and created_at; the stored
table maps only the rows of that id to the overwritten row, the id sequence
is untouched, and every note of a different id is still stored unchanged. -/
theorem update_frame (db : DB) (now id : Nat) (title content : String) (n : Note)
    (hn : getNote db id = some n) (ht : title ≠ "") (hc : content ≠ "") :
    (updateNote db now id title content).1
      = UpdateResult.ok ⟨n.id, title, content, n.created_at, now⟩ ∧
    n.id = id ∧
    (updateNote db now id title content).2.notes
      = db.notes.map (fun m => if m.id = id then
          { m with title := title, content := content, updated_at := now } else m) ∧
    (updateNote db now id title content).2.nextId = db.nextId ∧
    ∀ m ∈ db.notes, m.id ≠ id → m ∈ (updateNote db now id title content).2.notes := by
  have hcond : ¬(title = "" ∨ content = "") := by
    rintro (he | he)
    exacts [ht he, hc he]
  have hfind : db.notes.find? (fun m => m.id == id) = some n := hn
  have hup : updateNote db now id title content
      = (UpdateResult.ok { n with title := title, content := content, updated_at := now },
         { db with notes := db.notes.map (fun m => if m.id = id then
             { m with title := title, content := content, updated_at := now } else m) }) := by
    unfold updateNote
    rw [if_neg hcond, hfind]
  have hid : n.id = id := by
    have := List.find?_some hfind
    simpa using this
  refine ⟨by rw [hup], hid, by rw [hup], by rw [hup], ?_⟩
  intro m hm hne
  rw [hup]
  exact List.mem_map.mpr ⟨m, hm, by rw [if_neg hne]⟩

/-- Witness for C4 on a one-note table. -/
theorem update_frame_witness :
    (updateNote ⟨[⟨1, "A", "a", 0, 0⟩], 2⟩ 5 1 ("T") ("C")).1
      = UpdateResult.ok ⟨1, "T", "C", 0, 5⟩ ∧
    (updateNote ⟨[⟨1, "A", "a", 0, 0⟩], 2⟩ 5 1 ("T") ("C")).2.nextId = 2 :=
  ⟨(update_frame ⟨[⟨1, "A", "a", 0, 0⟩], 2⟩ 5 1 ("T") ("C") ⟨1, "A", "a", 0, 0⟩ rfl
      (by decide) (by decide)).1,
   (update_frame ⟨[⟨1, "A", "a", 0, 0⟩], 2⟩ 5 1 ("T") ("C") ⟨1, "A", "a", 0, 0⟩ rfl
      (by decide) (by decide)).2.2.2.1⟩

theorem reach_noteOk {db : DB} {t : Nat} (h : Reach db t) :
    ∀ n ∈ db.notes, NoteOk t n := by
  induction h with
  | init =>
      intro n hn
      simp [dbEmpty] at hn
  | tick h hle ih =>
      intro n hn
      obtain ⟨h1, h2, h3, h4⟩ := ih n hn
      exact ⟨h1, h2, h3, Nat.le_trans h4 hle⟩
  | create title content h ih =>
      intro n hn
      simp only [createNote] at hn
      by_cases hcond : title = "" ∨ content = ""
      · rw [if_pos hcond] at hn
        exact ih n hn
      · rw [if_neg hcond] at hn
        push_neg at hcond
        simp only [List.mem_append, List.mem_singleton] at hn
        rcases hn with hn | rfl
        · exact ih n hn
        · exact ⟨hcond.1, hcond.2, Nat.le_refl _, Nat.le_refl _⟩
  | update id title content h ih =>
      rename_i db t
      intro n hn
      simp only [updateNote] at hn
      by_cases hcond : title = "" ∨ content = ""
      · rw [if_pos hcond] at hn
        exact ih n hn
      · rw [if_neg hcond] at hn
        push_neg at hcond
        rcases hfind : db.notes.find? (fun m => m.id == id) with _ | m
        · rw [hfind] at hn
          exact ih n hn
        · rw [hfind] at hn
          simp only [List.mem_map] at hn
          obtain ⟨m', hm', rfl⟩ := hn
          obtain ⟨h1, h2, h3, h4⟩ := ih m' hm'
          by_cases hid : m'.id = id
          · rw [if_pos hid]
            exact ⟨hcond.1, hcond.2, Nat.le_trans h3 h4, Nat.le_refl _⟩
          · rw [if_neg hid]
            exact ⟨h1, h2, h3, h4⟩
  | delete id h ih =>
      rename_i db t
      intro n hn
      simp only [deleteNote] at hn
      by_cases hcond : (db.notes.any fun m => m.id == id) = true
      · rw [if_pos hcond] at hn
        exact ih n (List.mem_of_mem_filter hn)
      · rw [if_neg hcond] at hn
        exact ih n hn

/-- C5: in every reachable storage state each stored note has non-empty title
and content and updated_at at least created_at; a successful create returns a
row whose two timestamps are both the insertion instant; and a successful
update of a stored row keeps its id and created_at while never decreasing
updated_at. -/
theorem storage_invariants (db : DB) (t : Nat) (h : Reach db t) :
    (∀ n ∈ db.notes, n.title ≠ "" ∧ n.content ≠ "" ∧ n.created_at ≤ n.updated_at) ∧
    (∀ now title content n',
        (createNote db now title content).1 = CreateResult.created n' →
        n'.created_at = now ∧ n'.updated_at = now) ∧
    (∀ id title content n n', getNote db id = some n →
        (updateNote db t id title content).1 = UpdateResult.ok n' →
        n'.id = n.id ∧ n'.created_at = n.created_at ∧ n.updated_at ≤ n'.updated_at) := by
  refine ⟨fun n hn => ?_,
          fun now title content n' hcr => ?_,
          fun id title content n n' hg hup => ?_⟩
  · obtain ⟨h1, h2, h3, _⟩ := reach_noteOk h n hn
    exact ⟨h1, h2, h3⟩
  · simp only [createNote] at hcr
    by_cases hcond : title = "" ∨ content = ""
    · rw [if_pos hcond] at hcr
      cases hcr
    · rw [if_neg hcond] at hcr
      simp only [Prod.fst] at hcr
      injection hcr with he
      subst he
      exact ⟨rfl, rfl⟩
  · simp only [updateNote] at hup
    by_cases hcond : title = "" ∨ content = ""
    · rw [if_pos hcond] at hup
      cases hup
    · rw [if_neg hcond] at hup
      have hfind : db.notes.find? (fun m => m.id == id) = some n := hg
      rw [hfind] at hup
      injection hup with he
      subst he
      have hin := reach_noteOk h n (List.mem_of_find?_eq_some hfind)
      exact ⟨rfl, rfl, hin.2.2.2⟩

/-- Witness for C5 on a state reached by one create at clock 1. -/
theorem storage_invariants_witness :
    (⟨1, "A", "a", 1, 1⟩ : Note).title ≠ "" ∧
    (⟨1, "A", "a", 1, 1⟩ : Note).created_at ≤ (⟨1, "A", "a", 1, 1⟩ : Note).updated_at :=
  let inv := (storage_invariants _ 1
    (Reach.create ("A") ("a") (Reach.tick Reach.init (by decide)))).1
    ⟨1, "A", "a", 1, 1⟩ (by decide)
  ⟨inv.1, inv.2.2⟩

/-- C2 counterexample: with the mail relay unconfigured and a syntactically
invalid recipient, the route answers 500 not configured instead of the
claimed 400 invalid address, because the configuration check runs before the
address-format check. -/
theorem email_validation_order_counterexample :
    emailRegexTest ("not-an-email") = false ∧
    emailSendHandler { gmailUser := none, gmailAppPassword := none }
      ("not-an-email") ("subject") ("content") = EmailSendOutcome.notConfigured ∧
    outcomeStatus (emailSendHandler { gmailUser := none, gmailAppPassword := none }
      ("not-an-email") ("subject") ("content")) = 500 := by
  refine ⟨by decide, rfl, rfl⟩

/-- C2 amended: for complete requests whose recipient fails the address
regex, sendEmail is never invoked; the response is 400 invalid address when
the relay is configured, but 500 not configured when it is not, since the
configuration check fires first. -/
theorem email_invalid_address (env : Env) (toAddr subject content : String)
    (h1 : toAddr ≠ "") (h2 : subject ≠ "") (h3 : content ≠ "")
    (h4 : emailRegexTest toAddr = false) :
    (∀ a b c, emailSendHandler env toAddr subject content ≠ EmailSendOutcome.delegated a b c) ∧
    (if isConfigured env then
        emailSendHandler env toAddr subject content = EmailSendOutcome.invalidEmail ∧
        outcomeStatus EmailSendOutcome.invalidEmail = 400
      else
        emailSendHandler env toAddr subject content = EmailSendOutcome.notConfigured ∧
        outcomeStatus EmailSendOutcome.notConfigured = 500) := by
  have hmf : ¬(toAddr = "" ∨ subject = "" ∨ content = "") := by
    rintro (he | he | he)
    exacts [h1 he, h2 he, h3 he]
  unfold emailSendHandler
  rw [if_neg hmf]
  cases hcfg : isConfigured env with
  | false => simp [hcfg, outcomeStatus]
  | true => simp [hcfg, h4, outcomeStatus]

/-- Witness for C2 amended under a configured relay. -/
theorem email_invalid_address_witness :
    emailSendHandler { gmailUser := some ("u@g.co"), gmailAppPassword := some ("pw") }
      ("not-an-email") ("s") ("c") = EmailSendOutcome.invalidEmail :=
  (email_invalid_address
    { gmailUser := some ("u@g.co"), gmailAppPassword := some ("pw") }
    ("not-an-email") ("s") ("c")
    (by decide) (by decide) (by decide) (by decide)).2.1

/-- C7: isConfigured holds exactly when both GMAIL_USER and
GMAIL_APP_PASSWORD are present and non-empty; with the transporter still
null, a configured send reaches the transport with the composed message and
the freshly created handle, while an unconfigured send throws the
credentials error before touching the transport, the route never delegates
to sendEmail, and a complete request is answered 500 not configured. -/
theorem configured_and_send (env : Env) (st : MailState)
    (toAddr subject content : String) (hst : st.transporter = none) :
    (isConfigured env = true ↔
      ((∃ s, env.gmailUser = some s ∧ s ≠ "") ∧
       (∃ s, env.gmailAppPassword = some s ∧ s ≠ ""))) ∧
    (if isConfigured env then
        sendEmailM env st toAddr subject content
          = Except.ok (mkMailOptions (some (env.gmailUser.getD "")) toAddr subject content,
              { transporter := some { user := env.gmailUser.getD "",
                                      pass := env.gmailAppPassword.getD "" },
                userEmail := some (env.gmailUser.getD "") })
      else
        (sendEmailM env st toAddr subject content = Except.error credentialsError ∧
         (∀ a b c, emailSendHandler env toAddr subject content
            ≠ EmailSendOutcome.delegated a b c) ∧
         (toAddr ≠ "" → subject ≠ "" → content ≠ "" →
           emailSendHandler env toAddr subject content = EmailSendOutcome.notConfigured ∧
           outcomeStatus EmailSendOutcome.notConfigured = 500))) := by
  constructor
  · obtain ⟨u, p⟩ := env
    rcases u with _ | su <;> rcases p with _ | sp <;>
      simp [isConfigured, truthy]
  · cases hcfg : isConfigured env with
    | true =>
        rw [if_pos rfl]
        have hc : (truthy env.gmailUser && truthy env.gmailAppPassword) = true := hcfg
        simp only [sendEmailM, hst]
        rw [if_pos hc]
    | false =>
        rw [if_neg (by simp)]
        have hc : (truthy env.gmailUser && truthy env.gmailAppPassword) = false := hcfg
        refine ⟨?_, ?_, ?_⟩
        · simp only [sendEmailM, hst]
          rw [if_neg (by simp [hc])]
        · intro a b c
          unfold emailSendHandler
          by_cases hmf : toAddr = "" ∨ subject = "" ∨ content = ""
          · rw [if_pos hmf]
            simp
          · rw [if_neg hmf, hcfg]
            simp
        · intro ha hb hcnt
          have hmf : ¬(toAddr = "" ∨ subject = "" ∨ content = "") := by
            rintro (he | he | he)
            exacts [ha he, hb he, hcnt he]
          unfold emailSendHandler
          rw [if_neg hmf, hcfg]
          exact ⟨rfl, rfl⟩

/-- Witness for C7: a configured environment with a fresh module state
forwards the message and creates the handle. -/
theorem configured_and_send_witness :
    sendEmailM { gmailUser := some ("u@g.co"), gmailAppPassword := some ("pw") }
      mailStateInit ("a@b.co") ("s") ("c")
      = Except.ok (mkMailOptions (some ("u@g.co")) ("a@b.co") ("s") ("c"),
          { transporter := some { user := "u@g.co", pass := "pw" },
            userEmail := some ("u@g.co") }) :=
  (configured_and_send { gmailUser := some ("u@g.co"), gmailAppPassword := some ("pw") }
    mailStateInit ("a@b.co") ("s") ("c") rfl).2

theorem replaceNewlinesList_append (xs ys : List Char) :
    replaceNewlinesList (xs ++ ys) = replaceNewlinesList xs ++ replaceNewlinesList ys := by
  unfold replaceNewlinesList
  rw [List.map_append, List.flatten_append]

theorem replaceNewlinesList_no_newline (cs : List Char) (h : ∀ c ∈ cs, c ≠ '\n') :
    replaceNewlinesList cs = cs := by
  induction cs with
  | nil => rfl
  | cons c rest ih =>
      unfold replaceNewlinesList
      simp only [List.map_cons, List.flatten_cons]
      rw [if_neg (h c (List.mem_cons_self c rest))]
      have hrest := ih (fun x hx => h x (List.mem_cons_of_mem c hx))
      unfold replaceNewlinesList at hrest
      rw [hrest]
      rfl

theorem replaceNewlines_append_newline (a b : String) :
    replaceNewlines (a ++ ("\n") ++ b)
      = replaceNewlines a ++ ("<br>") ++ replaceNewlines b := by
  apply String.ext
  simp only [replaceNewlines, String.data_append, replaceNewlinesList_append]
  rfl

theorem replaceNewlines_id (s : String) (h : ∀ c ∈ s.data, c ≠ '\n') :
    replaceNewlines s = s := by
  apply String.ext
  simpa [replaceNewlines] using replaceNewlinesList_no_newline s.data h

/-- C8: every message a successful send forwards to the transport carries the
content verbatim as the plain-text body and an html body that is the fixed
template with the subject inside an h2 heading and the content with each
newline replaced by a br tag; the replacement splits around every newline and
is the identity on newline-free text. -/
theorem send_body_rendering (env : Env) (st : MailState)
    (toAddr subject content : String) (msg : MailMessage) (st' : MailState)
    (h : sendEmailM env st toAddr subject content = Except.ok (msg, st')) :
    msg.text = content ∧
    msg.toAddr = toAddr ∧
    msg.subject = subject ∧
    msg.html = emailHtmlPre ++ subject ++ emailHtmlMid
        ++ replaceNewlines content ++ emailHtmlSuf ∧
    (∀ a b : String, replaceNewlines (a ++ ("\n") ++ b)
        = replaceNewlines a ++ ("<br>") ++ replaceNewlines b) ∧
    (∀ s : String, (∀ c ∈ s.data, c ≠ '\n') → replaceNewlines s = s) := by
  have hmsg : ∃ u, msg = mkMailOptions u toAddr subject content := by
    rcases hst : st.transporter with _ | tr
    · simp only [sendEmailM, hst] at h
      by_cases hcfg : (truthy env.gmailUser && truthy env.gmailAppPassword) = true
      · rw [if_pos hcfg] at h
        simp only [Except.ok.injEq, Prod.mk.injEq] at h
        exact ⟨_, h.1.symm⟩
      · rw [if_neg hcfg] at h
        simp at h
    · simp only [sendEmailM, hst] at h
      simp only [Except.ok.injEq, Prod.mk.injEq] at h
      exact ⟨_, h.1.symm⟩
  obtain ⟨u, rfl⟩ := hmsg
  exact ⟨rfl, rfl, rfl, rfl, replaceNewlines_append_newline, replaceNewlines_id⟩

/-- Witness for C8: a concrete send with a newline in the content. -/
theorem send_body_rendering_witness :
    (mkMailOptions (some ("u@g.co")) ("a@b.co") ("S") ("l1\nl2")).text = "l1\nl2" :=
  (send_body_rendering { gmailUser := some ("u@g.co"), gmailAppPassword := some ("pw") }
    mailStateInit ("a@b.co") ("S") ("l1\nl2")
    (mkMailOptions (some ("u@g.co")) ("a@b.co") ("S") ("l1\nl2"))
    { transporter := some { user := "u@g.co", pass := "pw" },
      userEmail := some ("u@g.co") }
    rfl).1

theorem sendEmailM_isSome (env : Env) (st : MailState)
    (toAddr subject content : String) (h : st.transporter.isSome = true) :
    sendEmailM env st toAddr subject content
      = Except.ok (mkMailOptions st.userEmail toAddr subject content, st) := by
  rcases hst : st.transporter with _ | tr
  · rw [hst] at h
    simp at h
  · simp only [sendEmailM, hst]

/-- C9: once the transporter handle exists a send forwards the message and
returns the module state unchanged, so any sequence of further sends within
the process reuses the very same handle; from the fresh module state the
handle is created only by the first send that needs it, when the environment
is configured, and a failing initialization leaves no handle behind. -/
theorem transporter_initialized_once (env : Env) (st : MailState)
    (toAddr subject content : String) (reqs : List (String × String × String))
    (h : st.transporter.isSome = true) :
    sendEmailM env st toAddr subject content
      = Except.ok (mkMailOptions st.userEmail toAddr subject content, st) ∧
    runSends env st reqs = st ∧
    (if isConfigured env then
        (sendEmailM env mailStateInit toAddr subject content).map Prod.snd
          = Except.ok { transporter := some { user := env.gmailUser.getD "",
                                              pass := env.gmailAppPassword.getD "" },
                        userEmail := some (env.gmailUser.getD "") }
      else
        sendEmailM env mailStateInit toAddr subject content
          = Except.error credentialsError) := by
  refine ⟨sendEmailM_isSome env st toAddr subject content h, ?_, ?_⟩
  · induction reqs with
    | nil => rfl
    | cons r rest ih =>
        obtain ⟨a, b, c⟩ := r
        show runSends env st ((a, b, c) :: rest) = st
        simp only [runSends]
        rw [sendEmailM_isSome env st a b c h]
        exact ih
  · cases hcfg : isConfigured env with
    | true =>
        rw [if_pos rfl]
        have hc : (truthy env.gmailUser && truthy env.gmailAppPassword) = true := hcfg
        simp only [sendEmailM, mailStateInit]
        rw [if_pos hc]
        rfl
    | false =>
        rw [if_neg (by simp)]
        have hc : (truthy env.gmailUser && truthy env.gmailAppPassword) = false := hcfg
        simp only [sendEmailM, mailStateInit]
        rw [if_neg (by simp [hc])]

/-- Witness for C9: two further sends after initialization leave the module
state untouched. -/
theorem transporter_initialized_once_witness :
    runSends { gmailUser := some ("u@g.co"), gmailAppPassword := some ("pw") }
      { transporter := some { user := "u@g.co", pass := "pw" },
        userEmail := some ("u@g.co") }
      [("a@b.co", "s1", "c1"), ("d@e.fo", "s2", "c2")]
      = { transporter := some { user := "u@g.co", pass := "pw" },
          userEmail := some ("u@g.co") } :=
  (transporter_initialized_once
    { gmailUser := some ("u@g.co"), gmailAppPassword := some ("pw") }
    { transporter := some { user := "u@g.co", pass := "pw" },
      userEmail := some ("u@g.co") }
    ("x@y.zo") ("s") ("c")
    [("a@b.co", "s1", "c1"), ("d@e.fo", "s2", "c2")] rfl).2.1

end NoteTaker
